import Mathlib

/-!
Verification development for the cdrxiv file-uploader.

The repository relays newly created S3 objects to Zenodo.  The relevant
source artifacts are:

* `src/src/types.ts`, which contains (a) the metadata CRUD operations
  (`updateDataDeposition`, `deleteZenodoEntity`, `fetchDataDeposition`,
  `createDataDepositionVersion`) guarded by a `ZENODO_URL` prefix check,
  (b) a chunked uploader `uploadLargeFileToZenodo` driven by a
  `while (start < fileSize)` loop with `CHUNK_SIZE = 100 * 1024 * 1024`,
  (c) `fetchWithRetry`, and (d) a Lambda `handler`;
* `src/aws-lambda/src/index.ts`, which contains `fetchWithRetry`,
  `uploadFileToZenodo` (single PUT followed by a HEAD size verification),
  `createDataDeposition` and the Lambda `handler`.

Effectful TypeScript is embedded as pure Lean functions over explicit
oracle environments describing the outcomes of the network and S3 calls,
returning an explicit result value together with the trace of issued
requests.  JavaScript exceptions are modelled with `Except` / a `thrown`
constructor; JS falsiness of `ContentLength` (undefined or 0) is modelled
on `Option Nat`.
-/

/-- An HTTP response as observed by the TypeScript code: its status code,
its `statusText`, and the parsed numeric value of its `Content-Length`
header when present (`parseInt(h || '0')` is modelled by `Option.getD 0`). -/
structure HttpResponse where
  status : Nat
  statusText : String
  contentLength : Option Nat
deriving DecidableEq, Repr

/-- `node-fetch`'s `res.ok`: status in the range [200, 300). -/
def HttpResponse.ok (r : HttpResponse) : Bool :=
  decide (200 ≤ r.status) && decide (r.status < 300)

/-- Outcome of one underlying `fetch` call: either a received response
(whatever its status), or a transport-level failure (rejected promise)
carrying the error message. -/
inductive FetchOutcome where
  | resp (r : HttpResponse)
  | err (e : String)
deriving DecidableEq, Repr

/-- `MAX_RETRIES = 3` from both `src/src/types.ts` and
`src/aws-lambda/src/index.ts`. -/
def MAX_RETRIES : Nat := 3

/-- `RETRY_DELAY = 5000` milliseconds from the source. -/
def RETRY_DELAY : Nat := 5000

/-- `fetchWithRetry(url, options, retries)` from the source:
try `fetch`; on success (a received response, of any status) return it;
on a transport error, if `retries > 0`, wait `RETRY_DELAY` and recurse
with `retries - 1`, else rethrow the error.

The underlying `fetch` is modelled by the oracle `f : Nat → FetchOutcome`
giving the outcome of the `i`-th attempt; the function returns the overall
outcome together with the number of times the inter-attempt delay was
observed. -/
def fetchWithRetry (f : Nat → FetchOutcome) : Nat → Nat → Except String HttpResponse × Nat
  | i, retries =>
    match f i with
    | .resp r => (.ok r, 0)
    | .err e =>
      match retries with
      | 0 => (.error e, 0)
      | n + 1 =>
        ((fetchWithRetry f (i + 1) n).1, (fetchWithRetry f (i + 1) n).2 + 1)

/-- `CHUNK_SIZE = 100 * 1024 * 1024` from `src/src/types.ts`. -/
def CHUNK_SIZE : Nat := 100 * 1024 * 1024

/-- The byte-range plan generated by the `while (start < fileSize)` loop of
`uploadLargeFileToZenodo` in `src/src/types.ts`:
`end = Math.min(start + CHUNK_SIZE - 1, fileSize - 1)`, one inclusive range
`(start, end)` per iteration, then `start = end + 1`.  The loop runs at
most `fileSize` times for a positive chunk ceiling, so `fileSize` is
sufficient fuel; the chunk ceiling is kept as a parameter. -/
def rangePlanAux (fileSize chunk : Nat) : Nat → Nat → List (Nat × Nat)
  | _, 0 => []
  | start, fuel + 1 =>
    if start < fileSize then
      (start, min (start + chunk - 1) (fileSize - 1)) ::
        rangePlanAux fileSize chunk (min (start + chunk - 1) (fileSize - 1) + 1) fuel
    else []

/-- The full range plan for an object of `fileSize` bytes with chunk
ceiling `chunk`, starting at offset 0. -/
def rangePlan (fileSize chunk : Nat) : List (Nat × Nat) :=
  rangePlanAux fileSize chunk 0 fileSize

/-- `chainFrom s rs` holds when the inclusive ranges `rs` start exactly at
offset `s`, each range is nonempty (`fst ≤ snd`), and consecutive ranges
are contiguous (each next range starts right after the previous one ends).
This entails non-overlap and strictly increasing byte offsets. -/
def chainFrom : Nat → List (Nat × Nat) → Bool
  | _, [] => true
  | s, r :: rest => decide (r.1 = s) && decide (r.1 ≤ r.2) && chainFrom (r.2 + 1) rest

/-- Total number of bytes covered by a list of inclusive ranges. -/
def sumLens : List (Nat × Nat) → Nat
  | [] => 0
  | r :: rest => (r.2 - r.1 + 1) + sumLens rest

theorem rangePlanAux_chain_sum (fileSize chunk : Nat) (hc : 0 < chunk) :
    ∀ (fuel start : Nat), fileSize - start ≤ fuel →
      chainFrom start (rangePlanAux fileSize chunk start fuel) = true ∧
      sumLens (rangePlanAux fileSize chunk start fuel) = fileSize - start := by
  intro fuel
  induction fuel with
  | zero =>
    intro start h
    simp only [rangePlanAux, chainFrom, sumLens]
    exact ⟨trivial, by omega⟩
  | succ n ih =>
    intro start h
    by_cases hs : start < fileSize
    · have h1 : start ≤ min (start + chunk - 1) (fileSize - 1) := by omega
      have h2 : min (start + chunk - 1) (fileSize - 1) + 1 ≤ fileSize := by omega
      obtain ⟨ihc, ihs⟩ :=
        ih (min (start + chunk - 1) (fileSize - 1) + 1) (by omega)
      constructor
      · simp only [rangePlanAux, if_pos hs, chainFrom]
        simp [ihc, h1]
      · simp only [rangePlanAux, if_pos hs, sumLens, ihs]
        omega
    · simp only [rangePlanAux, if_neg hs, chainFrom, sumLens]
      exact ⟨trivial, by omega⟩

/-- C1: for every object size `s` and chunk ceiling `c > 0`, the generated
range plan starts at offset 0, is contiguous and non-overlapping (captured
by `chainFrom 0`), and its range lengths sum to exactly `s`; in particular
for a 250 MiB object and a 100 MiB ceiling the plan is exactly the three
ranges `[0,104857599]`, `[104857600,209715199]`, `[209715200,262143999]`
in that order. -/
theorem rangePlan_contiguous_covers (s c : Nat) (hc : 0 < c) :
    chainFrom 0 (rangePlan s c) = true ∧
    sumLens (rangePlan s c) = s ∧
    rangePlan (250 * 1024 * 1024) (100 * 1024 * 1024) =
      [(0, 104857599), (104857600, 209715199), (209715200, 262143999)] := by
  obtain ⟨h1, h2⟩ := rangePlanAux_chain_sum s c hc s 0 (by omega)
  refine ⟨h1, by simpa using h2, ?_⟩
  decide

theorem rangePlan_contiguous_covers_witness :
    chainFrom 0 (rangePlan 5 2) = true ∧
    sumLens (rangePlan 5 2) = 5 ∧
    rangePlan (250 * 1024 * 1024) (100 * 1024 * 1024) =
      [(0, 104857599), (104857600, 209715199), (209715200, 262143999)] :=
  rangePlan_contiguous_covers 5 2 (by decide)

theorem fetchWithRetry_succeeds_after (f : Nat → FetchOutcome) (r : HttpResponse)
    (e : Nat → String) :
    ∀ (k i R : Nat), k ≤ R →
      (∀ j, j < k → f (i + j) = .err (e (i + j))) →
      f (i + k) = .resp r →
      fetchWithRetry f i R = (.ok r, k) := by
  intro k
  induction k with
  | zero =>
    intro i R _ _ hs
    simp only [Nat.add_zero] at hs
    cases R <;> simp [fetchWithRetry, hs]
  | succ k ih =>
    intro i R hk hf hs
    have h0 : f i = .err (e i) := by
      have := hf 0 (Nat.succ_pos k)
      simpa using this
    obtain ⟨R, rfl⟩ : ∃ m, R = m + 1 := ⟨R - 1, by omega⟩
    have hrec : fetchWithRetry f (i + 1) R = (.ok r, k) := by
      refine ih (i + 1) R (by omega) ?_ ?_
      · intro j hj
        have harg : i + 1 + j = i + (j + 1) := by omega
        rw [harg]
        exact hf (j + 1) (by omega)
      · have harg : i + 1 + k = i + (k + 1) := by omega
        rw [harg]; exact hs
    simp [fetchWithRetry, h0, hrec]

theorem fetchWithRetry_exhausts (f : Nat → FetchOutcome) (e : Nat → String) :
    ∀ (R i : Nat), (∀ j, j ≤ R → f (i + j) = .err (e (i + j))) →
      fetchWithRetry f i R = (.error (e (i + R)), R) := by
  intro R
  induction R with
  | zero =>
    intro i hf
    have h0 : f i = .err (e i) := by simpa using hf 0 (Nat.le_refl 0)
    simp [fetchWithRetry, h0]
  | succ R ih =>
    intro i hf
    have h0 : f i = .err (e i) := by simpa using hf 0 (by omega)
    have hrec : fetchWithRetry f (i + 1) R = (.error (e (i + 1 + R)), R) := by
      refine ih (i + 1) ?_
      intro j hj
      have harg : i + 1 + j = i + (j + 1) := by omega
      rw [harg]
      exact hf (j + 1) (by omega)
    have harg : i + 1 + R = i + (R + 1) := by omega
    rw [harg] at hrec
    simp [fetchWithRetry, h0, hrec]

/-- C2: for the retrying transport configured with retry bound `R`
(the code's default is `MAX_RETRIES`): if the underlying fetch fails
transiently on exactly the first `k` attempts and then succeeds, with
`k ≤ R`, the overall call returns the received response and the delay is
observed exactly `k` times; if all `R + 1` attempts fail, the call fails
surfacing the last underlying error (after `R` delays); and a successfully
received response is returned with zero retries regardless of its status
code. -/
theorem fetchWithRetry_spec (f : Nat → FetchOutcome) (R k : Nat)
    (r : HttpResponse) (e : Nat → String) :
    (k ≤ R → (∀ j, j < k → f j = .err (e j)) → f k = .resp r →
      fetchWithRetry f 0 R = (.ok r, k)) ∧
    ((∀ j, j ≤ R → f j = .err (e j)) →
      fetchWithRetry f 0 R = (.error (e R), R)) ∧
    (f 0 = .resp r → fetchWithRetry f 0 R = (.ok r, 0)) := by
  refine ⟨?_, ?_, ?_⟩
  · intro hk hf hs
    refine fetchWithRetry_succeeds_after f r e k 0 R hk ?_ (by simpa using hs)
    intro j hj
    simpa using hf j hj
  · intro hf
    have := fetchWithRetry_exhausts f e R 0 (by intro j hj; simpa using hf j hj)
    simpa using this
  · intro hs
    cases R <;> simp [fetchWithRetry, hs]

/-- A fetch oracle that fails on the first attempt and then succeeds. -/
def failOnceOracle : Nat → FetchOutcome
  | 0 => .err "ECONNRESET"
  | _ + 1 => .resp ⟨201, "Created", none⟩

/-- A fetch oracle that always fails at the transport level. -/
def alwaysFailOracle (j : Nat) : FetchOutcome :=
  .err ("ECONNRESET " ++ toString j)

theorem fetchWithRetry_spec_witness :
    fetchWithRetry failOnceOracle 0 MAX_RETRIES = (.ok ⟨201, "Created", none⟩, 1) ∧
    fetchWithRetry alwaysFailOracle 0 MAX_RETRIES = (.error ("ECONNRESET " ++ toString 3), 3) ∧
    fetchWithRetry (fun _ => .resp ⟨500, "Internal Server Error", none⟩) 0 MAX_RETRIES =
      (.ok ⟨500, "Internal Server Error", none⟩, 0) :=
  ⟨(fetchWithRetry_spec failOnceOracle MAX_RETRIES 1 ⟨201, "Created", none⟩
      (fun _ => "ECONNRESET")).1 (by decide)
      (by intro j hj; interval_cases j; rfl) rfl,
   (fetchWithRetry_spec alwaysFailOracle MAX_RETRIES 0 ⟨201, "Created", none⟩
      (fun j => "ECONNRESET " ++ toString j)).2.1 (by intro j hj; rfl),
   (fetchWithRetry_spec (fun _ => .resp ⟨500, "Internal Server Error", none⟩)
      MAX_RETRIES 0 ⟨500, "Internal Server Error", none⟩
      (fun _ => "")).2.2 rfl⟩

/-- A PUT request to the deposition upload target as assembled by the
source: the destination URL (`links.bucket` plus the URL-escaped file
name), the numeric value of the `Content-Length` header, the
`Content-Range` header when declared (the chunked uploader sets it, the
single-PUT uploader does not), and the byte range requested from S3 as
the request body (`none` when the body is the whole-object stream). -/
structure PutReq where
  url : String
  contentLength : Nat
  contentRange : Option String
  bodyRange : Option (Nat × Nat)
deriving DecidableEq, Repr

/-- The chunk PUT issued by `uploadLargeFileToZenodo` for the inclusive
range `r` of a `fileSize`-byte object: `Content-Length` is the chunk size
`end - start + 1` and `Content-Range` is `bytes {start}-{end}/{fileSize}`,
with the S3 `Range: bytes={start}-{end}` stream as body. -/
def mkChunkReq (url : String) (fileSize : Nat) (r : Nat × Nat) : PutReq :=
  ⟨url, r.2 - r.1 + 1,
    some ("bytes " ++ toString r.1 ++ "-" ++ toString r.2 ++ "/" ++ toString fileSize),
    some r⟩

/-- Oracle environment for one run of the chunked uploader: per chunk
index, whether the S3 range read yields a `Readable` body, and the outcome
of the chunk PUT through the retrying transport (`Except` models the
transport surfacing an error after its retries). -/
structure UploadEnv where
  s3BodyOk : Nat → Bool
  put : Nat → Except String HttpResponse

/-- The `while (start < fileSize)` loop body of `uploadLargeFileToZenodo`
(`src/src/types.ts`): fetch the S3 range `bytes={start}-{end}`, throw if
the body is not readable, PUT the chunk through `fetchWithRetry`, throw
`Failed to upload file chunk` on a non-success status, else advance
`start = end + 1`.  Returns the ordered list of chunk PUTs issued together
with the overall outcome; `fuel` bounds the iteration count as in
`rangePlanAux`. -/
def uploadChunksAux (env : UploadEnv) (url : String) (fileSize chunk : Nat) :
    Nat → Nat → Nat → List PutReq × Except String Unit
  | _, _, 0 => ([], .ok ())
  | start, idx, fuel + 1 =>
    if start < fileSize then
      if env.s3BodyOk idx then
        match env.put idx with
        | .error msg =>
          ([mkChunkReq url fileSize (start, min (start + chunk - 1) (fileSize - 1))],
           .error msg)
        | .ok r =>
          if r.ok then
            (mkChunkReq url fileSize (start, min (start + chunk - 1) (fileSize - 1)) ::
              (uploadChunksAux env url fileSize chunk
                (min (start + chunk - 1) (fileSize - 1) + 1) (idx + 1) fuel).1,
             (uploadChunksAux env url fileSize chunk
                (min (start + chunk - 1) (fileSize - 1) + 1) (idx + 1) fuel).2)
          else
            ([mkChunkReq url fileSize (start, min (start + chunk - 1) (fileSize - 1))],
             .error ("Failed to upload file chunk: " ++ r.statusText))
      else ([], .error "Failed to get file chunk from S3")
    else ([], .ok ())

/-- `uploadLargeFileToZenodo(deposition, fileName, bucket, key, fileSize)`
from `src/src/types.ts`: PUT the object to
`deposition.links.bucket + '/' + encodeURIComponent(fileName)` in
`CHUNK_SIZE` chunks.  `encodeURIComponent` is the JS builtin and is taken
as the function parameter `enc`; `bucketUrl` stands for
`deposition.links.bucket`. -/
def uploadLargeFileToZenodo (env : UploadEnv) (enc : String → String)
    (bucketUrl fileName : String) (fileSize : Nat) : List PutReq × Except String Unit :=
  uploadChunksAux env (bucketUrl ++ "/" ++ enc fileName) fileSize CHUNK_SIZE 0 0 fileSize

theorem uploadChunksAux_all_ok (env : UploadEnv) (url : String) (fileSize chunk : Nat)
    (hbody : ∀ i, env.s3BodyOk i = true)
    (hput : ∀ i, ∃ r, env.put i = .ok r ∧ r.ok = true) :
    ∀ (fuel start idx : Nat),
      uploadChunksAux env url fileSize chunk start idx fuel =
        ((rangePlanAux fileSize chunk start fuel).map (mkChunkReq url fileSize), .ok ()) := by
  intro fuel
  induction fuel with
  | zero => intro start idx; simp [uploadChunksAux, rangePlanAux]
  | succ n ih =>
    intro start idx
    by_cases hs : start < fileSize
    · obtain ⟨r, hr, hok⟩ := hput idx
      simp only [uploadChunksAux, rangePlanAux, if_pos hs, hbody idx, hr, hok,
        if_true, List.map_cons, ih]
    · simp [uploadChunksAux, rangePlanAux, hs]

theorem uploadChunksAux_plan_order (env : UploadEnv) (url : String) (fileSize chunk : Nat) :
    ∀ (fuel start idx : Nat), ∃ n,
      (uploadChunksAux env url fileSize chunk start idx fuel).1 =
        ((rangePlanAux fileSize chunk start fuel).take n).map (mkChunkReq url fileSize) := by
  intro fuel
  induction fuel with
  | zero => intro start idx; exact ⟨0, by simp [uploadChunksAux, rangePlanAux]⟩
  | succ n ih =>
    intro start idx
    by_cases hs : start < fileSize
    · by_cases hb : env.s3BodyOk idx
      · cases hr : env.put idx with
        | error msg =>
          refine ⟨1, ?_⟩
          simp [uploadChunksAux, rangePlanAux, hs, hb, hr]
        | ok r =>
          by_cases hok : r.ok
          · obtain ⟨m, hm⟩ := ih (min (start + chunk - 1) (fileSize - 1) + 1) (idx + 1)
            refine ⟨m + 1, ?_⟩
            simp [uploadChunksAux, rangePlanAux, hs, hb, hr, hok, hm]
          · refine ⟨1, ?_⟩
            simp [uploadChunksAux, rangePlanAux, hs, hb, hr, hok]
      · exact ⟨0, by simp [uploadChunksAux, rangePlanAux, hs, hb]⟩
    · exact ⟨0, by simp [uploadChunksAux, rangePlanAux, hs]⟩

theorem take_min_length {α : Type} (n : Nat) (M : List α) :
    M.take (min n M.length) = M.take n := by
  rcases Nat.le_total n M.length with h | h
  · rw [Nat.min_eq_left h]
  · rw [Nat.min_eq_right h, List.take_length, List.take_of_length_le h]

theorem map_take_length_eq {α β : Type} (f : α → β) (plan : List α) (n : Nat) :
    (plan.take n).map f = (plan.map f).take (((plan.take n).map f).length) := by
  rw [List.map_take, List.length_take, List.length_map]
  rcases Nat.le_total n plan.length with h | h
  · rw [Nat.min_eq_left h]
  · rw [Nat.min_eq_right h,
      List.take_of_length_le (by simpa using h),
      List.take_of_length_le (by simp)]

/-- C5: the chunked uploader issues, for each range of the plan and in
plan order, exactly one PUT to `bucketUrl ++ "/" ++ enc fileName` with
`Content-Length` equal to the range's byte count and `Content-Range` equal
to `bytes {start}-{end}/{size}` and that range's S3 stream as body:
(1) for every oracle the issued PUTs are an initial segment of the mapped
plan (so PUTs are issued strictly sequentially in increasing byte-offset
order, and a failed range stops the transfer before any later range);
(2) when every S3 range read and every chunk PUT succeeds, the issued PUTs
are exactly the mapped plan and the upload succeeds;
(3) the plan itself starts at 0 and is contiguous and non-overlapping. -/
theorem uploadLargeFile_puts_match_plan (env : UploadEnv) (enc : String → String)
    (bucketUrl fileName : String) (fileSize : Nat) :
    ((uploadLargeFileToZenodo env enc bucketUrl fileName fileSize).1 =
      (((rangePlan fileSize CHUNK_SIZE).map
          (mkChunkReq (bucketUrl ++ "/" ++ enc fileName) fileSize)).take
        (uploadLargeFileToZenodo env enc bucketUrl fileName fileSize).1.length)) ∧
    ((∀ i, env.s3BodyOk i = true) → (∀ i, ∃ r, env.put i = .ok r ∧ r.ok = true) →
      uploadLargeFileToZenodo env enc bucketUrl fileName fileSize =
        ((rangePlan fileSize CHUNK_SIZE).map
          (mkChunkReq (bucketUrl ++ "/" ++ enc fileName) fileSize), .ok ())) ∧
    chainFrom 0 (rangePlan fileSize CHUNK_SIZE) = true := by
  refine ⟨?_, ?_, (rangePlan_contiguous_covers fileSize CHUNK_SIZE (by decide)).1⟩
  · obtain ⟨n, hn⟩ :=
      uploadChunksAux_plan_order env (bucketUrl ++ "/" ++ enc fileName)
        fileSize CHUNK_SIZE fileSize 0 0
    show (uploadChunksAux env (bucketUrl ++ "/" ++ enc fileName)
        fileSize CHUNK_SIZE 0 0 fileSize).1 =
      ((rangePlanAux fileSize CHUNK_SIZE 0 fileSize).map
          (mkChunkReq (bucketUrl ++ "/" ++ enc fileName) fileSize)).take
        (uploadChunksAux env (bucketUrl ++ "/" ++ enc fileName)
          fileSize CHUNK_SIZE 0 0 fileSize).1.length
    rw [hn]
    exact map_take_length_eq _ _ n
  · intro hbody hput
    exact uploadChunksAux_all_ok env (bucketUrl ++ "/" ++ enc fileName)
      fileSize CHUNK_SIZE hbody hput fileSize 0 0

/-- An upload oracle whose S3 reads and chunk PUTs all succeed. -/
def allOkUploadEnv : UploadEnv :=
  ⟨fun _ => true, fun _ => .ok ⟨201, "Created", none⟩⟩

theorem uploadLargeFile_puts_match_plan_witness :
    uploadLargeFileToZenodo allOkUploadEnv id "B" "f.nc" 5 =
      ((rangePlan 5 CHUNK_SIZE).map (mkChunkReq ("B" ++ "/" ++ id "f.nc") 5), .ok ()) :=
  (uploadLargeFile_puts_match_plan allOkUploadEnv id "B" "f.nc" 5).2.1
    (fun _ => rfl) (fun _ => ⟨⟨201, "Created", none⟩, rfl, rfl⟩)

/-- The verification tail of `uploadFileToZenodo`
(`src/aws-lambda/src/index.ts`): after the PUT succeeds, issue a HEAD
probe to the upload URL; throw `Failed to verify final file size` if the
probe response is not ok (or the probe itself rejects, surfacing that
error); otherwise parse the probe's `Content-Length`
(`parseInt(h || '0')`, modelled by `Option.getD 0`) and throw
`Final file size mismatch` carrying both sizes unless it equals
`fileSize`. -/
def verifyFileSize (probe : Except String HttpResponse) (fileSize : Nat) :
    Except String Unit :=
  match probe with
  | .error e => .error e
  | .ok p =>
    if p.ok then
      if p.contentLength.getD 0 = fileSize then .ok ()
      else
        .error ("Final file size mismatch. Expected: " ++ toString fileSize ++
          ", Actual: " ++ toString (p.contentLength.getD 0))
    else .error ("Failed to verify final file size: " ++ p.statusText)

/-- C4: for expected size `E` and a successful probe reporting size `A`,
verification succeeds iff the probe is ok and `A = E`; on a mismatch it
fails with the error carrying both the expected size `E` and the actual
size `A`; a non-ok probe response fails with the probe's status text; a
probe-level failure propagates that failure. -/
theorem verifyFileSize_spec (E A : Nat) (r : HttpResponse) (e : String)
    (hA : r.contentLength = some A) :
    (verifyFileSize (.ok r) E = .ok () ↔ (r.ok = true ∧ A = E)) ∧
    (r.ok = true → A ≠ E →
      verifyFileSize (.ok r) E =
        .error ("Final file size mismatch. Expected: " ++ toString E ++
          ", Actual: " ++ toString A)) ∧
    (r.ok = false →
      verifyFileSize (.ok r) E =
        .error ("Failed to verify final file size: " ++ r.statusText)) ∧
    (verifyFileSize (.error e) E = .error e) := by
  refine ⟨?_, ?_, ?_, rfl⟩
  · constructor
    · intro h
      by_cases hok : r.ok
      · refine ⟨hok, ?_⟩
        by_contra hne
        simp [verifyFileSize, hok, hA, hne] at h
      · simp [verifyFileSize, hok] at h
    · rintro ⟨hok, rfl⟩
      simp [verifyFileSize, hok, hA]
  · intro hok hne
    simp [verifyFileSize, hok, hA, hne]
  · intro hok
    simp [verifyFileSize, hok]

theorem verifyFileSize_spec_witness :
    verifyFileSize (.ok ⟨200, "OK", some 10⟩) 10 = .ok () ∧
    verifyFileSize (.ok ⟨200, "OK", some 7⟩) 10 =
      .error ("Final file size mismatch. Expected: " ++ toString 10 ++
        ", Actual: " ++ toString 7) :=
  ⟨(verifyFileSize_spec 10 10 ⟨200, "OK", some 10⟩ "x" rfl).1.mpr ⟨by decide, rfl⟩,
   (verifyFileSize_spec 10 7 ⟨200, "OK", some 7⟩ "x" rfl).2.1 (by decide) (by decide)⟩

/-- The fields of a parsed `Deposition` that the transfer path reads:
the remote id, `links.bucket` (the upload target) and `links.html`. -/
structure DepositionM where
  id : Nat
  bucket : String
  html : String
deriving DecidableEq, Repr

/-- `createDataDeposition` from `src/aws-lambda/src/index.ts` (and the
chunked variant in `src/src/types.ts`): POST the fixed metadata payload
through `fetchWithRetry`; if the response is not ok, throw
`Failed to create deposition: ${res.statusText}`; otherwise parse the
body as a `Deposition` (the parsed value is supplied by the oracle).
`outcome` is the overall result of the retrying transport. -/
def createDataDeposition (outcome : Except String HttpResponse)
    (parsed : DepositionM) : Except String DepositionM :=
  match outcome with
  | .error e => .error e
  | .ok r =>
    if r.ok then .ok parsed
    else .error ("Failed to create deposition: " ++ r.statusText)

/-- The other `createDataDeposition`, at `src/src/types.ts` lines 84-101:
it POSTs with a plain `fetch` and performs *no status check at all* —
`res.json()` is parsed and returned as a `Deposition` whatever the
response status, so a 500 response does not make this provisioner fail.
Only a transport-level rejection propagates as an error. -/
def createDataDepositionSimple (outcome : Except String HttpResponse)
    (parsed : DepositionM) : Except String DepositionM :=
  match outcome with
  | .error e => .error e
  | .ok _ => .ok parsed

/-- An observable outbound operation of a handler invocation. -/
inductive Op where
  | s3Get (bucket key : String)
  | createDep
  | put (req : PutReq)
  | headProbe (url : String)
  | metaReq (method url : String)
deriving DecidableEq, Repr

/-- `true` exactly when the operation list contains an upload PUT. -/
def hasPut (ops : List Op) : Bool :=
  ops.any fun op => match op with | .put _ => true | _ => false

/-- One S3 event record: the bucket name and the raw object key. -/
structure S3Record where
  bucketName : String
  objectKey : String
deriving DecidableEq, Repr

/-- An S3 event: its `Records` array. -/
structure S3EventM where
  records : List S3Record
deriving DecidableEq, Repr

/-- What a handler invocation produces at the Lambda boundary: either a
structured `{ statusCode, body }` value, or an exception that escapes the
handler uncaught. -/
inductive HandlerResult where
  | response (statusCode : Nat) (body : String)
  | thrown (msg : String)
deriving DecidableEq, Repr

/-- `true` exactly when the handler returned a structured
`{ statusCode, body }` value rather than throwing. -/
def HandlerResult.isStructured : HandlerResult → Bool
  | .response _ _ => true
  | .thrown _ => false

/-- `objectKey.replace(/\+/g, ' ')`: every `+` becomes a space
(character-wise over the string's characters). -/
def plusToSpace (s : String) : String :=
  ⟨s.data.map fun c => if c = '+' then ' ' else c⟩

/-- `split('/')` over the character list: the list of `/`-separated
segments, with an empty trailing segment when the input ends in `/`
(JS `'a/'.split('/')` is `['a', '']`). -/
def splitSegsAux : List Char → List Char → List String
  | [], acc => [⟨acc.reverse⟩]
  | c :: cs, acc =>
    if c = '/' then ⟨acc.reverse⟩ :: splitSegsAux cs []
    else splitSegsAux cs (c :: acc)

/-- `objectKey.split('/').pop()`: the final path segment (`''` when the
key ends in `/` or is empty, which is falsy in JS). -/
def lastPathSegment (s : String) : String :=
  (splitSegsAux s.data []).getLastD ""

/-- The file name the handlers derive from an event record:
`decodeURIComponent(key.replace(/\+/g, ' ')).split('/').pop()`.
`decodeURIComponent` is the JS builtin, taken as the parameter `dec`. -/
def extractFileName (dec : String → String) (key : String) : String :=
  lastPathSegment (dec (plusToSpace key))

/-- Oracle environment for one handler invocation, covering both handler
variants: the JS builtins `decodeURIComponent` / `encodeURIComponent`,
the initial `GetObjectCommand` result (whether `Body` is a `Readable`,
and `ContentLength`, whose JS falsiness models both `undefined` and `0`),
the overall outcome of the deposition-creation POST and the parsed
deposition, the outcome of the aws-lambda variant's single upload PUT and
of its HEAD probe, and the per-chunk oracles of the chunked variant. -/
structure HandlerEnv where
  dec : String → String
  enc : String → String
  s3BodyOk : Bool
  s3ContentLength : Option Nat
  createOutcome : Except String HttpResponse
  deposition : DepositionM
  uploadPut : Except String HttpResponse
  probe : Except String HttpResponse
  chunkBodyOk : Nat → Bool
  chunkPut : Nat → Except String HttpResponse

/-- `uploadFileToZenodo(deposition, fileName, fileStream, fileSize)` from
`src/aws-lambda/src/index.ts`: a single PUT of the whole stream to
`deposition.links.bucket + '/' + encodeURIComponent(fileName)` with
`Content-Length: fileSize` and no `Content-Range`, through
`fetchWithRetry`; throw `Failed to upload file` on a non-success status;
then run the HEAD size verification.  Returns the outcome and the issued
operations. -/
def uploadFileToZenodoOps (env : HandlerEnv) (dep : DepositionM)
    (fileName : String) (fileSize : Nat) : Except String Unit × List Op :=
  match env.uploadPut with
  | .error e =>
    (.error e, [.put ⟨dep.bucket ++ "/" ++ env.enc fileName, fileSize, none, none⟩])
  | .ok r =>
    if r.ok then
      match verifyFileSize env.probe fileSize with
      | .error e =>
        (.error e,
         [.put ⟨dep.bucket ++ "/" ++ env.enc fileName, fileSize, none, none⟩,
          .headProbe (dep.bucket ++ "/" ++ env.enc fileName)])
      | .ok _ =>
        (.ok (),
         [.put ⟨dep.bucket ++ "/" ++ env.enc fileName, fileSize, none, none⟩,
          .headProbe (dep.bucket ++ "/" ++ env.enc fileName)])
    else
      (.error ("Failed to upload file: " ++ r.statusText),
       [.put ⟨dep.bucket ++ "/" ++ env.enc fileName, fileSize, none, none⟩])

/-- The body of the `handler` of `src/aws-lambda/src/index.ts` applied to
the first event record (`event.Records[0]`): derive `objectKey` and
`fileName`, throw `File name is required` when the name is falsy (this
happens *before* the `try` block, so it escapes uncaught), then inside
`try`/`catch`: read the object from S3 (throwing when `Body` is not
readable or `ContentLength` is falsy), create the deposition, upload and
verify; the `catch` maps any thrown error `e` to
`{ statusCode: 500, body: 'Error processing file: ' + e.message }`. -/
def awsHandlerCore (env : HandlerEnv) (record : S3Record) : HandlerResult × List Op :=
  if lastPathSegment (env.dec (plusToSpace record.objectKey)) = "" then
    (.thrown "File name is required", [])
  else
    if !env.s3BodyOk || env.s3ContentLength.getD 0 == 0 then
      (.response 500 "Error processing file: Failed to get file stream from S3",
       [.s3Get record.bucketName (env.dec (plusToSpace record.objectKey))])
    else
      match createDataDeposition env.createOutcome env.deposition with
      | .error msg =>
        (.response 500 ("Error processing file: " ++ msg),
         [.s3Get record.bucketName (env.dec (plusToSpace record.objectKey)), .createDep])
      | .ok dep =>
        match uploadFileToZenodoOps env dep
            (lastPathSegment (env.dec (plusToSpace record.objectKey)))
            (env.s3ContentLength.getD 0) with
        | (.error msg, ops) =>
          (.response 500 ("Error processing file: " ++ msg),
           .s3Get record.bucketName (env.dec (plusToSpace record.objectKey)) ::
             .createDep :: ops)
        | (.ok _, ops) =>
          (.response 200 "File processed and published successfully",
           .s3Get record.bucketName (env.dec (plusToSpace record.objectKey)) ::
             .createDep :: ops)

/-- The `handler` of `src/aws-lambda/src/index.ts`: it reads only
`event.Records[0]`; accessing `Records[0]` of an empty `Records` array
makes the subsequent property access throw a `TypeError`, again before
the `try` block. -/
def awsHandler (env : HandlerEnv) (event : S3EventM) : HandlerResult × List Op :=
  match event.records with
  | [] => (.thrown "TypeError: Cannot read properties of undefined", [])
  | record :: _ => awsHandlerCore env record

/-- The body of the chunked `handler` of `src/src/types.ts` (lines
382-437) applied to the first event record: identical control flow to
`awsHandlerCore` except that the upload goes through
`uploadLargeFileToZenodo` and the `catch` returns the fixed body
`'Error processing file'` without the error message. -/
def chunkedHandlerCore (env : HandlerEnv) (record : S3Record) : HandlerResult × List Op :=
  if lastPathSegment (env.dec (plusToSpace record.objectKey)) = "" then
    (.thrown "File name is required", [])
  else
    if !env.s3BodyOk || env.s3ContentLength.getD 0 == 0 then
      (.response 500 "Error processing file",
       [.s3Get record.bucketName (env.dec (plusToSpace record.objectKey))])
    else
      match createDataDeposition env.createOutcome env.deposition with
      | .error _ =>
        (.response 500 "Error processing file",
         [.s3Get record.bucketName (env.dec (plusToSpace record.objectKey)), .createDep])
      | .ok dep =>
        match uploadLargeFileToZenodo ⟨env.chunkBodyOk, env.chunkPut⟩ env.enc dep.bucket
            (lastPathSegment (env.dec (plusToSpace record.objectKey)))
            (env.s3ContentLength.getD 0) with
        | (puts, .error _) =>
          (.response 500 "Error processing file",
           .s3Get record.bucketName (env.dec (plusToSpace record.objectKey)) ::
             .createDep :: puts.map Op.put)
        | (puts, .ok _) =>
          (.response 200 "File processed and published successfully",
           .s3Get record.bucketName (env.dec (plusToSpace record.objectKey)) ::
             .createDep :: puts.map Op.put)

/-- The chunked `handler` of `src/src/types.ts`: reads only
`event.Records[0]`. -/
def chunkedHandler (env : HandlerEnv) (event : S3EventM) : HandlerResult × List Op :=
  match event.records with
  | [] => (.thrown "TypeError: Cannot read properties of undefined", [])
  | record :: _ => chunkedHandlerCore env record

/-- A concrete handler environment in which every remote call succeeds:
identity URI codecs, a readable 10-byte S3 object, successful deposition
creation, upload PUT and size-matching HEAD probe. -/
def baseEnv : HandlerEnv :=
  ⟨id, id, true, some 10, .ok ⟨201, "Created", none⟩,
   ⟨77, "https://z/api/files/abc", "https://z/dep/77"⟩,
   .ok ⟨201, "Created", none⟩, .ok ⟨200, "OK", some 10⟩,
   fun _ => true, fun _ => .ok ⟨201, "Created", none⟩⟩

/-- C7: the destination file name is the final path segment of the
percent-decoded object key with `+` treated as a literal space; when that
name is empty both handlers throw `File name is required` immediately with
no network activity (an empty operation trace: no S3 read, no deposition
creation, no upload); and when processing proceeds, the upload PUT is
addressed at the deposition upload target joined with the URL-escaped
extracted file name. -/
theorem handler_extracts_fileName (env : HandlerEnv) (record : S3Record)
    (rest : List S3Record) (n : Nat) (dep : DepositionM) :
    (extractFileName env.dec record.objectKey =
      lastPathSegment (env.dec (plusToSpace record.objectKey))) ∧
    (extractFileName env.dec record.objectKey = "" →
      awsHandler env ⟨record :: rest⟩ = (.thrown "File name is required", []) ∧
      chunkedHandler env ⟨record :: rest⟩ = (.thrown "File name is required", [])) ∧
    (extractFileName env.dec record.objectKey ≠ "" →
      env.s3BodyOk = true → env.s3ContentLength = some n → n ≠ 0 →
      createDataDeposition env.createOutcome env.deposition = .ok dep →
      ((awsHandler env ⟨record :: rest⟩).2.drop 2).head? =
        some (.put ⟨dep.bucket ++ "/" ++
          env.enc (extractFileName env.dec record.objectKey), n, none, none⟩)) := by
  unfold extractFileName
  refine ⟨rfl, ?_, ?_⟩
  · intro h
    constructor
    · show awsHandlerCore env record = _
      unfold awsHandlerCore
      rw [if_pos h]
    · show chunkedHandlerCore env record = _
      unfold chunkedHandlerCore
      rw [if_pos h]
  · intro h hbody hcl hn hc
    show ((awsHandlerCore env record).2.drop 2).head? = _
    unfold awsHandlerCore
    rw [if_neg h, hbody, hcl]
    simp only [Option.getD_some]
    have hcond : (!true || n == 0) = false := by simp [hn]
    rw [hcond, if_neg (by simp), hc]
    rcases hu : env.uploadPut with e | r
    · simp [uploadFileToZenodoOps, hu]
    · by_cases hok : r.ok
      · rcases hv : verifyFileSize env.probe n with e2 | u
        · simp [uploadFileToZenodoOps, hu, hok, hv]
        · simp [uploadFileToZenodoOps, hu, hok, hv]
      · simp [uploadFileToZenodoOps, hu, hok]

theorem handler_extracts_fileName_witness :
    ((awsHandler baseEnv ⟨[⟨"bkt", "data/file.txt"⟩]⟩).2.drop 2).head? =
      some (.put ⟨baseEnv.deposition.bucket ++ "/" ++
        baseEnv.enc (extractFileName baseEnv.dec "data/file.txt"), 10, none, none⟩) :=
  (handler_extracts_fileName baseEnv ⟨"bkt", "data/file.txt"⟩ [] 10
    baseEnv.deposition).2.2 (by decide) rfl rfl (by decide) rfl

/-- C8 amended: every error raised inside the `try` block (S3 read,
provisioning, upload, verification) is mapped by the `catch` to a
structured `{ statusCode, body }` value; only the file-name validation,
which runs before the `try`, can escape uncaught. -/
theorem handler_structured_after_validation (env : HandlerEnv) (record : S3Record)
    (rest : List S3Record)
    (h : extractFileName env.dec record.objectKey ≠ "") :
    (awsHandler env ⟨record :: rest⟩).1.isStructured = true ∧
    (chunkedHandler env ⟨record :: rest⟩).1.isStructured = true := by
  unfold extractFileName at h
  constructor
  · show (awsHandlerCore env record).1.isStructured = true
    unfold awsHandlerCore
    rw [if_neg h]
    by_cases hs : (!env.s3BodyOk || env.s3ContentLength.getD 0 == 0) = true
    · rw [if_pos hs]; rfl
    · rw [if_neg hs]
      cases createDataDeposition env.createOutcome env.deposition with
      | error msg => rfl
      | ok dep =>
        rcases hu : uploadFileToZenodoOps env dep
            (lastPathSegment (env.dec (plusToSpace record.objectKey)))
            (env.s3ContentLength.getD 0) with ⟨res, ops⟩
        cases res <;> simp [hu, HandlerResult.isStructured]
  · show (chunkedHandlerCore env record).1.isStructured = true
    unfold chunkedHandlerCore
    rw [if_neg h]
    by_cases hs : (!env.s3BodyOk || env.s3ContentLength.getD 0 == 0) = true
    · rw [if_pos hs]; rfl
    · rw [if_neg hs]
      cases createDataDeposition env.createOutcome env.deposition with
      | error msg => rfl
      | ok dep =>
        rcases hu : uploadLargeFileToZenodo ⟨env.chunkBodyOk, env.chunkPut⟩ env.enc dep.bucket
            (lastPathSegment (env.dec (plusToSpace record.objectKey)))
            (env.s3ContentLength.getD 0) with ⟨puts, res⟩
        cases res <;> simp [hu, HandlerResult.isStructured]

theorem handler_structured_after_validation_witness :
    (awsHandler baseEnv ⟨[⟨"bkt", "data/file.txt"⟩]⟩).1.isStructured = true ∧
    (chunkedHandler baseEnv ⟨[⟨"bkt", "data/file.txt"⟩]⟩).1.isStructured = true :=
  handler_structured_after_validation baseEnv ⟨"bkt", "data/file.txt"⟩ [] (by decide)

/-- C8 is refuted as stated: for an event whose object key ends in `/`,
the derived file name is empty and the `File name is required` error is
thrown *before* the `try` block of either handler, so the invocation
raises an uncaught exception instead of returning a structured
`{ statusCode, body }` failure. -/
theorem handler_throws_uncaught_on_empty_name :
    awsHandler baseEnv ⟨[⟨"bkt", "data/"⟩]⟩ = (.thrown "File name is required", []) ∧
    (awsHandler baseEnv ⟨[⟨"bkt", "data/"⟩]⟩).1.isStructured = false ∧
    chunkedHandler baseEnv ⟨[⟨"bkt", "data/"⟩]⟩ = (.thrown "File name is required", []) := by
  decide

/-- C10: each handler reads only `event.Records[0]`: two events agreeing
on their first record (including both having none) produce identical
results and identical operation traces, so additional records are never
read, fetched or uploaded. -/
theorem handler_first_record_only (env : HandlerEnv) (e1 e2 : S3EventM)
    (h : e1.records.head? = e2.records.head?) :
    awsHandler env e1 = awsHandler env e2 ∧
    chunkedHandler env e1 = chunkedHandler env e2 := by
  rcases e1 with ⟨l1⟩
  rcases e2 with ⟨l2⟩
  cases l1 <;> cases l2 <;> simp_all [awsHandler, chunkedHandler]

theorem handler_first_record_only_witness :
    awsHandler baseEnv ⟨[⟨"bkt", "data/file.txt"⟩, ⟨"other", "extra+key.bin"⟩]⟩ =
      awsHandler baseEnv ⟨[⟨"bkt", "data/file.txt"⟩]⟩ ∧
    chunkedHandler baseEnv ⟨[⟨"bkt", "data/file.txt"⟩, ⟨"other", "extra+key.bin"⟩]⟩ =
      chunkedHandler baseEnv ⟨[⟨"bkt", "data/file.txt"⟩]⟩ :=
  handler_first_record_only baseEnv _ _ rfl

/-- `leadsWith pre l`: the character list `l` begins with `pre`. -/
def leadsWith : List Char → List Char → Bool
  | [], _ => true
  | _ :: _, [] => false
  | a :: as, b :: bs => a == b && leadsWith as bs

/-- `strContainsSub s sub`: `sub` occurs contiguously somewhere in `s`. -/
def strContainsSub (s sub : String) : Bool :=
  (List.range (s.data.length + 1)).any fun i => leadsWith sub.data (s.data.drop i)

/-- C6 amended: the two provisioner variants cited by the claim behave
differently on a non-success creation status.  In the status-checking
variants (`src/aws-lambda/src/index.ts` 86-107 and `src/src/types.ts`
358-379, modelled by `createDataDeposition`), creation throws an error
carrying the response's reason text (`statusText`) — though not the
numeric status code — the handler terminates with the failure status 500,
and no upload PUT appears in the invocation's operation trace.  The
simple variant at `src/src/types.ts` 84-101
(`createDataDepositionSimple`) performs no status check: it returns the
parsed response body and does not fail at all, so its caller proceeds. -/
theorem provision_failure_no_upload (env : HandlerEnv) (record : S3Record)
    (rest : List S3Record) (r : HttpResponse) (n : Nat)
    (hfn : extractFileName env.dec record.objectKey ≠ "")
    (hbody : env.s3BodyOk = true) (hcl : env.s3ContentLength = some n) (hn : n ≠ 0)
    (hcr : env.createOutcome = .ok r) (hok : r.ok = false) :
    createDataDeposition env.createOutcome env.deposition =
      .error ("Failed to create deposition: " ++ r.statusText) ∧
    awsHandler env ⟨record :: rest⟩ =
      (.response 500
        ("Error processing file: " ++ ("Failed to create deposition: " ++ r.statusText)),
       [.s3Get record.bucketName (env.dec (plusToSpace record.objectKey)), .createDep]) ∧
    hasPut (awsHandler env ⟨record :: rest⟩).2 = false ∧
    createDataDepositionSimple env.createOutcome env.deposition =
      .ok env.deposition := by
  unfold extractFileName at hfn
  have hcreate : createDataDeposition env.createOutcome env.deposition =
      .error ("Failed to create deposition: " ++ r.statusText) := by
    rw [hcr]
    simp [createDataDeposition, hok]
  have hrun : awsHandler env ⟨record :: rest⟩ =
      (.response 500
        ("Error processing file: " ++ ("Failed to create deposition: " ++ r.statusText)),
       [.s3Get record.bucketName (env.dec (plusToSpace record.objectKey)), .createDep]) := by
    show awsHandlerCore env record = _
    unfold awsHandlerCore
    rw [if_neg hfn, hbody, hcl]
    simp only [Option.getD_some]
    have hcond : (!true || n == 0) = false := by simp [hn]
    rw [hcond, if_neg (by simp), hcreate]
  refine ⟨hcreate, hrun, ?_, ?_⟩
  · rw [hrun]
    rfl
  · rw [hcr]
    rfl

/-- A handler environment identical to `baseEnv` except that deposition
creation receives an HTTP 500 response. -/
def provisionFailEnv : HandlerEnv :=
  ⟨id, id, true, some 10, .ok ⟨500, "Internal Server Error", none⟩,
   ⟨77, "https://z/api/files/abc", "https://z/dep/77"⟩,
   .ok ⟨201, "Created", none⟩, .ok ⟨200, "OK", some 10⟩,
   fun _ => true, fun _ => .ok ⟨201, "Created", none⟩⟩

theorem provision_failure_no_upload_witness :
    createDataDeposition provisionFailEnv.createOutcome provisionFailEnv.deposition =
      .error ("Failed to create deposition: " ++ "Internal Server Error") ∧
    awsHandler provisionFailEnv ⟨[⟨"bkt", "data/file.txt"⟩]⟩ =
      (.response 500
        ("Error processing file: " ++
          ("Failed to create deposition: " ++ "Internal Server Error")),
       [.s3Get "bkt" (provisionFailEnv.dec (plusToSpace "data/file.txt")), .createDep]) ∧
    hasPut (awsHandler provisionFailEnv ⟨[⟨"bkt", "data/file.txt"⟩]⟩).2 = false ∧
    createDataDepositionSimple provisionFailEnv.createOutcome provisionFailEnv.deposition =
      .ok provisionFailEnv.deposition :=
  provision_failure_no_upload provisionFailEnv ⟨"bkt", "data/file.txt"⟩ [] 
    ⟨500, "Internal Server Error", none⟩ 10 (by decide) rfl rfl (by decide) rfl (by decide)

/-- C6 is refuted at a concrete 500 response, in both of the variants the
claim cites.  In the status-checking variant the thrown message is
`Failed to create deposition: Internal Server Error`, which carries the
reason text but nowhere contains the status code `500` — so the error
does not carry the status information.  In the variant at
`src/src/types.ts` 84-101 the provisioner does not fail at all on the
500 response: it returns the parsed body as a deposition. -/
theorem provision_error_lacks_status_code :
    createDataDeposition (.ok ⟨500, "Internal Server Error", none⟩)
        ⟨77, "https://z/api/files/abc", "https://z/dep/77"⟩ =
      .error "Failed to create deposition: Internal Server Error" ∧
    strContainsSub "Failed to create deposition: Internal Server Error" "500" = false ∧
    strContainsSub "Failed to create deposition: Internal Server Error"
      "Internal Server Error" = true ∧
    createDataDepositionSimple (.ok ⟨500, "Internal Server Error", none⟩)
        ⟨77, "https://z/api/files/abc", "https://z/dep/77"⟩ =
      .ok ⟨77, "https://z/api/files/abc", "https://z/dep/77"⟩ := by
  refine ⟨?_, by decide, by decide, rfl⟩
  rfl

/-- C3 amended: when the source object's size is 0, the range plan has
zero ranges and the chunked uploader performs no PUT at all (the upload
loop body never runs, for any oracle); moreover both handlers treat a
zero `ContentLength` as a failed S3 read (`!ContentLength` is truthy for
0), so the invocation fails with status 500 before any deposition is
created — a zero-byte object is never represented remotely. -/
theorem zero_size_upload_skipped (env : UploadEnv) (henv : HandlerEnv)
    (enc : String → String) (bucketUrl fileName : String) (c : Nat)
    (record : S3Record) (rest : List S3Record)
    (hcl : henv.s3ContentLength = some 0)
    (hfn : extractFileName henv.dec record.objectKey ≠ "") :
    rangePlan 0 c = [] ∧
    uploadLargeFileToZenodo env enc bucketUrl fileName 0 = ([], .ok ()) ∧
    awsHandler henv ⟨record :: rest⟩ =
      (.response 500 "Error processing file: Failed to get file stream from S3",
       [.s3Get record.bucketName (henv.dec (plusToSpace record.objectKey))]) ∧
    chunkedHandler henv ⟨record :: rest⟩ =
      (.response 500 "Error processing file",
       [.s3Get record.bucketName (henv.dec (plusToSpace record.objectKey))]) := by
  unfold extractFileName at hfn
  refine ⟨rfl, rfl, ?_, ?_⟩
  · show awsHandlerCore henv record = _
    unfold awsHandlerCore
    rw [if_neg hfn, hcl]
    simp
  · show chunkedHandlerCore henv record = _
    unfold chunkedHandlerCore
    rw [if_neg hfn, hcl]
    simp

/-- A handler environment identical to `baseEnv` except that the S3
object's reported `ContentLength` is 0. -/
def zeroSizeEnv : HandlerEnv :=
  ⟨id, id, true, some 0, .ok ⟨201, "Created", none⟩,
   ⟨77, "https://z/api/files/abc", "https://z/dep/77"⟩,
   .ok ⟨201, "Created", none⟩, .ok ⟨200, "OK", some 0⟩,
   fun _ => true, fun _ => .ok ⟨201, "Created", none⟩⟩

theorem zero_size_upload_skipped_witness :
    rangePlan 0 CHUNK_SIZE = [] ∧
    uploadLargeFileToZenodo allOkUploadEnv id "B" "empty.nc" 0 = ([], .ok ()) ∧
    awsHandler zeroSizeEnv ⟨[⟨"bkt", "data/empty.nc"⟩]⟩ =
      (.response 500 "Error processing file: Failed to get file stream from S3",
       [.s3Get "bkt" (zeroSizeEnv.dec (plusToSpace "data/empty.nc"))]) ∧
    chunkedHandler zeroSizeEnv ⟨[⟨"bkt", "data/empty.nc"⟩]⟩ =
      (.response 500 "Error processing file",
       [.s3Get "bkt" (zeroSizeEnv.dec (plusToSpace "data/empty.nc"))]) :=
  zero_size_upload_skipped allOkUploadEnv zeroSizeEnv id "B" "empty.nc" CHUNK_SIZE
    ⟨"bkt", "data/empty.nc"⟩ [] rfl (by decide)

/-- C3 is refuted as stated: for a zero-byte object the chunked uploader
issues no PUT whatsoever (so no "single zero-length PUT" occurs), and the
aws-lambda handler fails (status 500) instead of uploading an empty
file: `ContentLength = 0` is falsy and is treated as a failed read. -/
theorem zero_size_no_put_and_fails :
    (uploadLargeFileToZenodo allOkUploadEnv id "B" "empty.nc" 0).1 = [] ∧
    hasPut (awsHandler zeroSizeEnv ⟨[⟨"bkt", "data/empty.nc"⟩]⟩).2 = false ∧
    (awsHandler zeroSizeEnv ⟨[⟨"bkt", "data/empty.nc"⟩]⟩).1 =
      .response 500 "Error processing file: Failed to get file stream from S3" := by
  decide

/-- `url.startsWith(z)` of JS, character-wise. -/
def strStartsWith (s pre : String) : Bool :=
  leadsWith pre.data s.data

/-- The guard shared by the metadata operations of `src/src/types.ts`:
`process.env.ZENODO_URL && !url.startsWith(process.env.ZENODO_URL)`.
`zenodoUrl` is `none` when the variable is undefined; an empty string is
falsy, so the guard only fires for a nonempty configured base URL. -/
def checkDataUrl (zenodoUrl : Option String) (url : String) : Bool :=
  match zenodoUrl with
  | none => false
  | some z => !(z == "") && !(strStartsWith url z)

/-- `updateDataDeposition(url, params)` from `src/src/types.ts`: throw
`Invalid data URL` if the guard fires, else PUT `url`; a status other
than 200 throws `Status {s}: Unable to update deposition. {statusText}`;
otherwise the response body parses to a deposition (supplied by the
oracle `parsed`).  Returns the outcome and the issued requests. -/
def updateDataDeposition (zenodoUrl : Option String) (f : Except String HttpResponse)
    (parsed : DepositionM) (url : String) : Except String DepositionM × List Op :=
  if checkDataUrl zenodoUrl url then (.error ("Invalid data URL: " ++ url), [])
  else
    match f with
    | .error e => (.error e, [.metaReq "PUT" url])
    | .ok r =>
      if r.status == 200 then (.ok parsed, [.metaReq "PUT" url])
      else
        (.error ("Status " ++ toString r.status ++ ": Unable to update deposition. " ++
          r.statusText), [.metaReq "PUT" url])

/-- `deleteZenodoEntity(url)` from `src/src/types.ts`: guard, then
DELETE; 204 and 404 both count as successful deletion, anything else
throws. -/
def deleteZenodoEntity (zenodoUrl : Option String) (f : Except String HttpResponse)
    (url : String) : Except String Bool × List Op :=
  if checkDataUrl zenodoUrl url then (.error ("Invalid data URL: " ++ url), [])
  else
    match f with
    | .error e => (.error e, [.metaReq "DELETE" url])
    | .ok r =>
      if r.status == 204 || r.status == 404 then (.ok true, [.metaReq "DELETE" url])
      else
        (.error ("Status " ++ toString r.status ++ ": Unable to delete deposition. " ++
          r.statusText), [.metaReq "DELETE" url])

/-- `fetchDataDeposition(url)` from `src/src/types.ts`: guard, then GET;
a status other than 200 throws. -/
def fetchDataDeposition (zenodoUrl : Option String) (f : Except String HttpResponse)
    (parsed : DepositionM) (url : String) : Except String DepositionM × List Op :=
  if checkDataUrl zenodoUrl url then (.error ("Invalid data URL: " ++ url), [])
  else
    match f with
    | .error e => (.error e, [.metaReq "GET" url])
    | .ok r =>
      if r.status == 200 then (.ok parsed, [.metaReq "GET" url])
      else
        (.error ("Status " ++ toString r.status ++ ": Unable to fetch deposition. " ++
          r.statusText), [.metaReq "GET" url])

/-- `createDataDepositionVersion(url)` from `src/src/types.ts`: guard,
then POST; a status other than 201 throws. -/
def createDataDepositionVersion (zenodoUrl : Option String)
    (f : Except String HttpResponse) (parsed : DepositionM) (url : String) :
    Except String DepositionM × List Op :=
  if checkDataUrl zenodoUrl url then (.error ("Invalid data URL: " ++ url), [])
  else
    match f with
    | .error e => (.error e, [.metaReq "POST" url])
    | .ok r =>
      if r.status == 201 then (.ok parsed, [.metaReq "POST" url])
      else
        (.error ("Status " ++ toString r.status ++
          ": Unable to create new version of deposition. " ++ r.statusText),
         [.metaReq "POST" url])

/-- C9: when the configured archive base URL is set (nonempty), every
metadata operation on a deposition — update, delete, fetch,
create-new-version — throws `Invalid data URL: {url}` without issuing
any network request (an empty request trace) whenever the target URL
does not start with the configured base URL. -/
theorem metadata_ops_reject_foreign_urls (z url : String) (hz : z ≠ "")
    (h : strStartsWith url z = false) (f : Except String HttpResponse)
    (parsed : DepositionM) :
    updateDataDeposition (some z) f parsed url =
      (.error ("Invalid data URL: " ++ url), []) ∧
    deleteZenodoEntity (some z) f url = (.error ("Invalid data URL: " ++ url), []) ∧
    fetchDataDeposition (some z) f parsed url =
      (.error ("Invalid data URL: " ++ url), []) ∧
    createDataDepositionVersion (some z) f parsed url =
      (.error ("Invalid data URL: " ++ url), []) := by
  have hg : checkDataUrl (some z) url = true := by
    simp [checkDataUrl, h, hz]
  refine ⟨?_, ?_, ?_, ?_⟩ <;>
    simp [updateDataDeposition, deleteZenodoEntity, fetchDataDeposition,
      createDataDepositionVersion, hg]

theorem metadata_ops_reject_foreign_urls_witness :
    updateDataDeposition (some "https://zenodo.org") (.ok ⟨200, "OK", none⟩)
        ⟨77, "https://z/api/files/abc", "https://z/dep/77"⟩
        "https://attacker.example/deposit/1" =
      (.error ("Invalid data URL: " ++ "https://attacker.example/deposit/1"), []) ∧
    deleteZenodoEntity (some "https://zenodo.org") (.ok ⟨204, "No Content", none⟩)
        "https://attacker.example/deposit/1" =
      (.error ("Invalid data URL: " ++ "https://attacker.example/deposit/1"), []) ∧
    fetchDataDeposition (some "https://zenodo.org") (.ok ⟨200, "OK", none⟩)
        ⟨77, "https://z/api/files/abc", "https://z/dep/77"⟩
        "https://attacker.example/deposit/1" =
      (.error ("Invalid data URL: " ++ "https://attacker.example/deposit/1"), []) ∧
    createDataDepositionVersion (some "https://zenodo.org") (.ok ⟨201, "Created", none⟩)
        ⟨77, "https://z/api/files/abc", "https://z/dep/77"⟩
        "https://attacker.example/deposit/1" =
      (.error ("Invalid data URL: " ++ "https://attacker.example/deposit/1"), []) :=
  metadata_ops_reject_foreign_urls "https://zenodo.org"
    "https://attacker.example/deposit/1" (by decide) (by decide)
    (.ok ⟨200, "OK", none⟩) ⟨77, "https://z/api/files/abc", "https://z/dep/77"⟩
